import Mathlib

/-!
Shallow embedding of `AniMehList/convert/converter.py` (a MAL-XML to JSON
converter) and proofs about its field-mapping and season-inference logic.

Strings are modelled over `List Char` with ASCII semantics, matching the
ASCII-oriented regular-expression heuristics of the source.  Each Python
regular expression used by `infer_season` is embedded as a concrete
backtracking matcher with `re.search` semantics (leftmost start position
wins, greedy quantifiers with backtracking, `\b` word boundaries).
-/

namespace AniMehList

/-! ### Character classes (ASCII model of Python `re` classes and `str` methods) -/

/-- ASCII decimal digit, the `[0-9]` / `\d` class. -/
def isDig (c : Char) : Bool := 48 ≤ c.toNat && c.toNat ≤ 57

/-- ASCII whitespace, the `\s` class (space, tab, LF, VT, FF, CR). -/
def isSpaceChar (c : Char) : Bool :=
  c.toNat = 32 || c.toNat = 9 || c.toNat = 10 || c.toNat = 11 || c.toNat = 12 || c.toNat = 13

/-- ASCII word character, the `\w` class used by `\b` boundaries. -/
def isWordChar (c : Char) : Bool :=
  (65 ≤ c.toNat && c.toNat ≤ 90) || (97 ≤ c.toNat && c.toNat ≤ 122) || isDig c || c.toNat = 95

/-- Numeric value of a digit character. -/
def dval (c : Char) : Nat := c.toNat - 48

/-- ASCII lower-casing of one character (`str.lower`). -/
def pyLowerChar (c : Char) : Char :=
  if 65 ≤ c.toNat ∧ c.toNat ≤ 90 then Char.ofNat (c.toNat + 32) else c

/-- ASCII lower-casing of a string (`str.lower`). -/
def pyLower (s : String) : String := String.mk (s.data.map pyLowerChar)

/-- Strip leading and trailing whitespace from a character list (`str.strip`). -/
def pyStripChars (cs : List Char) : List Char :=
  (((cs.dropWhile isSpaceChar).reverse).dropWhile isSpaceChar).reverse

/-- Strip leading and trailing whitespace from a string (`str.strip`). -/
def pyStrip (s : String) : String := String.mk (pyStripChars s.data)

/-! ### Integer parsing (`int(...)` and `safe_int`) -/

/-- Value of a digit run, most significant digit first. -/
def digitsVal (ds : List Char) : Nat := ds.foldl (fun acc c => 10 * acc + dval c) 0

/-- Python `int(s)` on a string: optional surrounding whitespace, optional
sign, then a non-empty run of decimal digits; `none` models `ValueError`. -/
def pyInt (s : String) : Option Int :=
  match pyStripChars s.data with
  | [] => none
  | '+' :: ds => if ds ≠ [] ∧ ds.all isDig then some (Int.ofNat (digitsVal ds)) else none
  | '-' :: ds => if ds ≠ [] ∧ ds.all isDig then some (-(Int.ofNat (digitsVal ds))) else none
  | ds => if ds.all isDig then some (Int.ofNat (digitsVal ds)) else none

/-- `safe_int` from the converter: `int(value)` with a default for `None`
or unparseable input. -/
def safe_int (value : Option String) (default : Int) : Int :=
  match value with
  | none => default
  | some s => (pyInt s).getD default

/-! ### XML child-element text extraction (`text(el, tag)`) -/

/-- `text`: `findtext` result stripped, with the empty string normalized to
`none`.  The argument is the raw text content of the child element. -/
def text (raw : Option String) : Option String :=
  match raw with
  | none => none
  | some t =>
    let t := pyStrip t
    if t = "" then none else some t

/-! ### Season inference: embedded regular expressions

Each `RE_*` pattern of the source is embedded as a matcher `Option Char →
List Char → Option _` taking the character immediately before the current
position (for `\b`) and the remaining input.  `scan` implements
`re.search`: try every start position from the left, first match wins. -/

/-- Scan all start positions left to right, keeping the previous character
for word-boundary checks; the first position where `f` matches wins. -/
def scan {α : Type} (f : Option Char → List Char → Option α) :
    Option Char → List Char → Option α
  | prev, [] => f prev []
  | prev, c :: rest =>
    match f prev (c :: rest) with
    | some r => some r
    | none => scan f (some c) rest

/-- Is the previous character a word character?  (`\b` before a word
character holds iff this is false.) -/
def wordOpt : Option Char → Bool
  | none => false
  | some c => isWordChar c

/-- `\b` at the position after a match: next character absent or non-word. -/
def boundaryAfter : List Char → Bool
  | [] => true
  | c :: _ => !(isWordChar c)

/-- Case-insensitive literal match; returns the rest of the input. -/
def matchLitCI : List Char → List Char → Option (List Char)
  | [], s => some s
  | _ :: _, [] => none
  | l :: ls, c :: cs => if pyLowerChar c = pyLowerChar l then matchLitCI ls cs else none

/-- Case-sensitive literal match; returns the rest of the input. -/
def matchLit : List Char → List Char → Option (List Char)
  | [], s => some s
  | _ :: _, [] => none
  | l :: ls, c :: cs => if c = l then matchLit ls cs else none

/-- Value of `10 * d1 + d2` for a two-digit capture `d1 d2`. -/
def twoDigitVal (d1 d2 : Char) : Nat := 10 * dval d1 + dval d2

/-- `\s*([0-9]{1,2})\b`: skip whitespace, capture one or two digits
(greedy), require a word boundary after the capture. -/
def digitsTail (s : List Char) : Option Nat :=
  match s.dropWhile isSpaceChar with
  | [] => none
  | d1 :: rest =>
    if isDig d1 then
      match rest with
      | [] => some (dval d1)
      | d2 :: rest2 =>
        if isDig d2 then
          if boundaryAfter rest2 then some (twoDigitVal d1 d2) else none
        else if boundaryAfter rest then some (dval d1) else none
    else none

/-- `\b<lit>\s*([0-9]{1,2})\b` at the current position (case-insensitive),
for a literal starting with a word character. -/
def litThenDigits (lit : String) (prev : Option Char) (s : List Char) : Option Nat :=
  if wordOpt prev then none
  else
    match matchLitCI lit.data s with
    | some rest => digitsTail rest
    | none => none

/-- `RE_S_OR_SEASON_NUM = \bS(?:eason)?\s*([0-9]{1,2})\b` at one position:
the greedy optional group tries `Season` before the bare `S`. -/
def r1At (prev : Option Char) (s : List Char) : Option Nat :=
  match litThenDigits "season" prev s with
  | some n => some n
  | none => litThenDigits "s" prev s

/-- The two-character ordinal suffixes `st|nd|rd|th` (case-insensitive). -/
def ordSuffix2 (a b : Char) : Bool :=
  (pyLowerChar a = 's' && pyLowerChar b = 't') || (pyLowerChar a = 'n' && pyLowerChar b = 'd') ||
  (pyLowerChar a = 'r' && pyLowerChar b = 'd') || (pyLowerChar a = 't' && pyLowerChar b = 'h')

/-- `\s+Season\b` (case-insensitive): at least one whitespace character,
then the literal, then a word boundary. -/
def spacesThenSeason : List Char → Bool
  | [] => false
  | c :: rest =>
    if isSpaceChar c then
      match matchLitCI "season".data (rest.dropWhile isSpaceChar) with
      | some rest2 => boundaryAfter rest2
      | none => false
    else false

/-- Two-digit branch of `RE_ORDINAL_SEASON` after the leading digit `d1`. -/
def twoDigitOrd (d1 : Char) : List Char → Option Nat
  | d2 :: a :: b :: rest3 =>
    if isDig d2 && ordSuffix2 a b && spacesThenSeason rest3 then some (twoDigitVal d1 d2)
    else none
  | _ => none

/-- One-digit branch of `RE_ORDINAL_SEASON` after the leading digit `d1`. -/
def oneDigitOrd (d1 : Char) : List Char → Option Nat
  | a :: b :: rest2 =>
    if ordSuffix2 a b && spacesThenSeason rest2 then some (dval d1) else none
  | _ => none

/-- `RE_ORDINAL_SEASON = \b([0-9]{1,2})(?:st|nd|rd|th)\s+Season\b` at one
position; the greedy `{1,2}` tries two digits before one. -/
def r2At (prev : Option Char) (s : List Char) : Option Nat :=
  if wordOpt prev then none
  else
    match s with
    | [] => none
    | d1 :: rest =>
      if isDig d1 then
        match twoDigitOrd d1 rest with
        | some n => some n
        | none => oneDigitOrd d1 rest
      else none

/-- `RE_SEASON_NUM = \bSeason\s*([0-9]{1,2})\b` at one position. -/
def r3At (prev : Option Char) (s : List Char) : Option Nat :=
  litThenDigits "season" prev s

/-- `RE_PART_NUM = \bPart\s*([0-9]{1,2})\b` at one position. -/
def r4At (prev : Option Char) (s : List Char) : Option Nat :=
  litThenDigits "part" prev s

/-- The alternatives of `RE_ROMAN`, in the order the alternation tries them. -/
def ROMAN_ALTS : List String := ["II", "III", "IV", "V", "VI", "VII", "VIII", "IX", "X"]

/-- `ROMAN_MAP` from the source. -/
def ROMAN_MAP : List (String × Nat) :=
  [("II", 2), ("III", 3), ("IV", 4), ("V", 5), ("VI", 6), ("VII", 7), ("VIII", 8),
   ("IX", 9), ("X", 10)]

/-- `RE_ROMAN = \b(II|III|IV|V|VI|VII|VIII|IX|X)\b` (case-sensitive) at one
position: first alternative that matches and is followed by a boundary. -/
def r5At (prev : Option Char) (s : List Char) : Option String :=
  if wordOpt prev then none
  else
    ROMAN_ALTS.findSome? fun alt =>
      match matchLit alt.data s with
      | some rest => if boundaryAfter rest then some alt else none
      | none => none

/-- `RE_TRAILING_NUM = (\d{1,2})\s*$` at one position: one or two digits
(greedy) followed only by whitespace up to the end of the string. -/
def r6At (_ : Option Char) (s : List Char) : Option Nat :=
  match s with
  | [] => none
  | d1 :: rest =>
    if isDig d1 then
      match rest with
      | [] => some (dval d1)
      | d2 :: rest2 =>
        if isDig d2 then
          if rest2.all isSpaceChar then some (twoDigitVal d1 d2) else none
        else if rest.all isSpaceChar then some (dval d1) else none
    else none

/-- The trailing-number rule of `infer_season`: search `RE_TRAILING_NUM`
and accept the capture only in the inclusive range 1–10. -/
def trailingRule (cs : List Char) : Option Nat :=
  match scan r6At none cs with
  | some n => if 1 ≤ n ∧ n ≤ 10 then some n else none
  | none => none

/-- `infer_season` from the converter: the ordered ladder of regex
heuristics over a series title. -/
def infer_season (series_title : String) : Option Nat :=
  if series_title = "" then none
  else
    match scan r1At none series_title.data with
    | some n => some n
    | none =>
      match scan r2At none series_title.data with
      | some n => some n
      | none =>
        match scan r3At none series_title.data with
        | some n => some n
        | none =>
          match scan r4At none series_title.data with
          | some n => some n
          | none =>
            match scan r5At none series_title.data with
            | some token =>
              match ROMAN_MAP.lookup token with
              | some v => some v
              | none => trailingRule series_title.data
            | none => trailingRule series_title.data

/-! ### Field mapper -/

/-- `map_kind`: source type `Movie` (case-insensitive, trimmed) becomes
`MOVIE`; everything else (including absent) becomes `SERIES`. -/
def map_kind (series_type : Option String) : String :=
  match series_type with
  | some s => if !(s == "") && (pyLower (pyStrip s) == "movie") then "MOVIE" else "SERIES"
  | none => "SERIES"

/-- The chained comparisons of `map_status` on the trimmed, lower-cased
source status. -/
def status_lookup (s : String) : String :=
  if s = "watching" then "WATCHING"
  else if s = "completed" then "COMPLETED"
  else if s = "plan to watch" then "PLAN"
  else if s = "on-hold" then "WAITING"
  else if s = "dropped" then "PLAN"
  else "PLAN"

/-- `map_status` from the converter: the rewatching flag overrides
everything, absent/empty status maps to `PLAN`, otherwise the lookup. -/
def map_status (mal_status : Option String) (is_rewatching : Bool) : String :=
  if is_rewatching then "REWATCH"
  else
    match mal_status with
    | none => "PLAN"
    | some s0 => if s0 = "" then "PLAN" else status_lookup (pyLower (pyStrip s0))

/-- `mal_status and mal_status.strip().lower() == target`, the test used
for the dropped filter and for the notes fragments. -/
def statusIs (v : Option String) (target : String) : Bool :=
  match v with
  | some s => !(s == "") && (pyLower (pyStrip s) == target)
  | none => false

/-- Split a character list on commas; like Python `str.split(",")`, the
empty input gives one empty piece and separators are not merged. -/
def splitCommaList : List Char → List (List Char)
  | [] => [[]]
  | c :: rest =>
    if c = ',' then [] :: splitCommaList rest
    else
      match splitCommaList rest with
      | g :: gs => (c :: g) :: gs
      | [] => [[c]]

/-- `split_tags` from the converter: split on commas, strip every piece,
keep the non-empty pieces in order; falsy input gives the empty list. -/
def split_tags (raw : Option String) : List String :=
  match raw with
  | none => []
  | some r =>
    if r = "" then []
    else (((splitCommaList r.data).map pyStripChars).filter (fun g => !g.isEmpty)).map String.mk

/-- Python `" | ".join` — concatenate with the separator between pieces. -/
def joinSep (sep : String) : List String → String
  | [] => ""
  | [x] => x
  | x :: xs => x ++ sep ++ joinSep sep xs

/-- One `<anime>` element: the raw text contents of the child elements the
converter reads (`none` when the child is missing). -/
structure AnimeEl where
  series_title : Option String
  series_type : Option String
  my_status : Option String
  my_rewatching : Option String
  my_rewatching_ep : Option String
  my_watched_episodes : Option String
  my_score : Option String
  my_tags : Option String
  series_animedb_id : Option String
deriving DecidableEq, Repr

/-- One element of the output JSON array. -/
structure Item where
  title : String
  kind : String
  status : String
  season : Option Nat
  episode : Option Int
  absolute_episode : Option Int
  notes : Option String
  tags : List String
  rating : Option Int
  cover_url : Option String
  banner_key : Option String
  image_url : Option String
deriving DecidableEq, Repr

/-- `series_title` local of `build_item`: `text(...) or ""`. -/
def title_of (el : AnimeEl) : String := (text el.series_title).getD ""

/-- `is_rewatching` local of `build_item`. -/
def rewatching_of (el : AnimeEl) : Bool := safe_int (text el.my_rewatching) 0 == 1

/-- `rewatch_ep` local of `build_item`. -/
def rewatch_ep_of (el : AnimeEl) : Int := safe_int (text el.my_rewatching_ep) 0

/-- `watched_eps` local of `build_item`. -/
def watched_eps_of (el : AnimeEl) : Int := safe_int (text el.my_watched_episodes) 0

/-- `score` local of `build_item`. -/
def score_of (el : AnimeEl) : Int := safe_int (text el.my_score) 0

/-- `status` local of `build_item`. -/
def status_of (el : AnimeEl) : String := map_status (text el.my_status) (rewatching_of el)

/-- Episode logic of `build_item`: only for `WATCHING`/`REWATCH`, zero
normalized to absent. -/
def episode_of (el : AnimeEl) : Option Int :=
  if status_of el = "WATCHING" ∨ status_of el = "REWATCH" then
    let e := if status_of el = "REWATCH" then rewatch_ep_of el else watched_eps_of el
    if e = 0 then none else some e
  else none

/-- Season logic of `build_item`: inference only when the flag is set. -/
def season_of (el : AnimeEl) (infer_season_flag : Bool) : Option Nat :=
  if infer_season_flag then infer_season (title_of el) else none

/-- The `notes_parts` list of `build_item`, in construction order. -/
def notes_parts (mal_status series_type : Option String) : List String :=
  (if statusIs mal_status "on-hold" then ["MAL: On-Hold"] else []) ++
    (if statusIs mal_status "dropped" then ["MAL: Dropped"] else []) ++
      (match series_type with
       | some st => if !(st == "") && !(st == "TV") && !(st == "Movie")
                    then ["MAL type: " ++ st] else []
       | none => [])

/-- Is the source status `Dropped` (case-insensitive), the filtering test. -/
def dropped_source (el : AnimeEl) : Bool := statusIs (text el.my_status) "dropped"

/-- The item `build_item` constructs when the record is not filtered out. -/
def item_for (el : AnimeEl) (infer_season_flag : Bool) : Item :=
  { title := title_of el
    kind := map_kind (text el.series_type)
    status := status_of el
    season := season_of el infer_season_flag
    episode := episode_of el
    absolute_episode := none
    notes :=
      let ps := notes_parts (text el.my_status) (text el.series_type)
      if ps.isEmpty then none else some (joinSep " | " ps)
    tags := split_tags (text el.my_tags)
    rating := if score_of el = 0 then none else some (score_of el)
    cover_url := none
    banner_key := none
    image_url := none }

/-- `build_item` from the converter: drop excluded `Dropped` records,
otherwise build the mapped item. -/
def build_item (el : AnimeEl) (include_dropped infer_season_flag : Bool) : Option Item :=
  if dropped_source el && !include_dropped then none
  else some (item_for el infer_season_flag)

/-! ### Batch orchestrator -/

/-- The record loop of `convert_mal_xml_to_app_json`: append the mapped
item for each record, in document order, skipping filtered records. -/
def convertRecords (records : List AnimeEl) (include_dropped infer_season_flag : Bool) :
    List Item :=
  records.foldl
    (fun items anime =>
      match build_item anime include_dropped infer_season_flag with
      | some item => items ++ [item]
      | none => items)
    []

/-- Filesystem effects of the orchestrator, in the order they happen. -/
inductive FsEffect where
  | mkdirParents : FsEffect
  | writeJson : List Item → FsEffect
deriving DecidableEq

/-- `convert_mal_xml_to_app_json`: the parse result comes first; a parse
failure propagates before the directory is created or the file written.
The returned effect list records the filesystem operations in order; the
serialized value is the complete in-memory item list. -/
def convert_mal_xml_to_app_json (parsed : Except String (List AnimeEl))
    (include_dropped infer_season_flag : Bool) :
    Except String (List Item × List FsEffect) :=
  match parsed with
  | .error e => .error e
  | .ok records =>
    let items := convertRecords records include_dropped infer_season_flag
    .ok (items, [FsEffect.mkdirParents, FsEffect.writeJson items])

/-- The filesystem effects a conversion run performs. -/
def effectsOf : Except String (List Item × List FsEffect) → List FsEffect
  | .error _ => []
  | .ok (_, effs) => effs

/-! ### Right-to-left characterization of the trailing-number rule -/

/-- What the trailing-number regex actually captures, read from the right:
the final one or two digit characters of the string once trailing
whitespace is ignored (`none` when the last non-whitespace character is
not a digit or the string is empty/all whitespace). -/
def tailMatcher : List Char → Option Nat
  | [] => none
  | d1 :: rest =>
    if isDig d1 then
      match rest with
      | [] => some (dval d1)
      | d2 :: _ => if isDig d2 then some (twoDigitVal d2 d1) else some (dval d1)
    else none

/-- Right-to-left characterization of the `RE_TRAILING_NUM` search. -/
def specTrailing (cs : List Char) : Option Nat :=
  tailMatcher (cs.reverse.dropWhile isSpaceChar)

/-! ### Concrete records used by counterexamples and witnesses -/

/-- A `Dropped` source record that is also flagged as rewatching. -/
def elDroppedRewatch : AnimeEl :=
  ⟨none, none, some "Dropped", some "1", none, none, none, none, none⟩

/-- The item the converter produces for `elDroppedRewatch` with
`include_dropped = true`. -/
def itemDroppedRewatch : Item :=
  ⟨"", "SERIES", "REWATCH", none, none, none, some "MAL: Dropped", [], none, none, none, none⟩

/-- A plain `Dropped` source record (no rewatching). -/
def elDroppedPlain : AnimeEl :=
  ⟨none, none, some "Dropped", none, none, none, none, none, none⟩

/-- A record currently being watched, 12 episodes in. -/
def elWatching12 : AnimeEl :=
  ⟨none, none, some "Watching", none, none, some "12", none, none, none⟩

/-- The item the converter produces for `elWatching12`. -/
def itemWatching12 : Item :=
  ⟨"", "SERIES", "WATCHING", none, some 12, none, none, [], none, none, none, none⟩

/-- A completed record flagged as rewatching. -/
def elRewatchCompleted : AnimeEl :=
  ⟨none, none, some "Completed", some "1", none, none, none, none, none⟩

/-- The item the converter produces for `elRewatchCompleted`. -/
def itemRewatchCompleted : Item :=
  ⟨"", "SERIES", "REWATCH", none, none, none, none, [], none, none, none, none⟩

/-- A record whose series type is the lowercase string `"movie"`. -/
def elMovieLower : AnimeEl :=
  ⟨none, some "movie", none, none, none, none, none, none, none⟩

/-- The item the converter produces for `elMovieLower`. -/
def itemMovieLower : Item :=
  ⟨"", "MOVIE", "PLAN", none, none, none, some "MAL type: movie", [], none, none, none, none⟩

/-! ### Helper lemmas -/

/-- Inverting `build_item`: a produced item is exactly `item_for`. -/
lemma build_item_some {el : AnimeEl} {inc inf : Bool} {it : Item}
    (h : build_item el inc inf = some it) : it = item_for el inf := by
  unfold build_item at h
  split at h
  · cases h
  · exact (Option.some.inj h).symm

@[simp] lemma item_for_status (el : AnimeEl) (inf : Bool) :
    (item_for el inf).status = status_of el := rfl

@[simp] lemma item_for_episode (el : AnimeEl) (inf : Bool) :
    (item_for el inf).episode = episode_of el := rfl

@[simp] lemma item_for_kind (el : AnimeEl) (inf : Bool) :
    (item_for el inf).kind = map_kind (text el.series_type) := rfl

lemma item_for_notes (el : AnimeEl) (inf : Bool) :
    (item_for el inf).notes =
      (if (notes_parts (text el.my_status) (text el.series_type)).isEmpty then none
       else some (joinSep " | " (notes_parts (text el.my_status) (text el.series_type)))) := rfl

lemma mk_beq_empty (g : List Char) : (String.mk g == "") = g.isEmpty := by
  cases g with
  | nil => decide
  | cons c t =>
    have hne : String.mk (c :: t) ≠ "" := by
      intro h
      exact absurd (congrArg String.data h) (by simp)
    simp [hne]

lemma statusIs_eq_true_iff (v : Option String) (target : String) :
    statusIs v target = true ↔
      ∃ s, v = some s ∧ s ≠ "" ∧ pyLower (pyStrip s) = target := by
  cases v with
  | none => simp [statusIs]
  | some s => simp [statusIs]

/-! ### Claim C5 -/

/-- Claim C5: for every source record with the rewatching flag true, the
mapped status is `REWATCH`, regardless of the value (or absence) of the
source `my_status` field. -/
theorem rewatching_forces_rewatch :
    (∀ st : Option String, map_status st true = "REWATCH") ∧
    (∀ (el : AnimeEl) (inc inf : Bool) (it : Item),
      rewatching_of el = true → build_item el inc inf = some it →
        it.status = "REWATCH") := by
  constructor
  · intro st; rfl
  · intro el inc inf it hrw hb
    have hit := build_item_some hb
    subst hit
    simp only [item_for_status]
    unfold status_of map_status
    rw [hrw]
    simp

/-! ### Claim C6 -/

lemma convertRecords_go (inc inf : Bool) (l : List AnimeEl) :
    ∀ acc : List Item,
      l.foldl
        (fun items anime =>
          match build_item anime inc inf with
          | some item => items ++ [item]
          | none => items)
        acc
      = acc ++ l.filterMap (fun r => build_item r inc inf) := by
  induction l with
  | nil => intro acc; simp
  | cons a l ih =>
    intro acc
    simp only [List.foldl_cons, List.filterMap_cons]
    cases h : build_item a inc inf with
    | none => rw [ih]
    | some it => rw [ih]; simp

/-- Claim C6: the output sequence contains exactly one item per retained
(non-filtered) source record, in the same relative order as the records
appear in the source document — the record loop is `List.filterMap` of
`build_item` over the records in document order. -/
theorem convert_is_filterMap (recs : List AnimeEl) (inc inf : Bool) :
    convertRecords recs inc inf = recs.filterMap (fun r => build_item r inc inf) := by
  unfold convertRecords
  rw [convertRecords_go]
  simp

/-! ### Claim C7 -/

/-- Claim C7: `split_tags` splits on commas, strips every piece, discards
pieces that are empty after stripping, and preserves the order of the
remaining pieces; absent or empty input yields the empty sequence; in
particular `split_tags " a, b ,,c " = ["a", "b", "c"]`. -/
theorem split_tags_spec :
    split_tags (some " a, b ,,c ") = ["a", "b", "c"] ∧
    split_tags none = [] ∧
    split_tags (some "") = [] ∧
    ∀ raw : String,
      split_tags (some raw) =
        ((splitCommaList raw.data).map (fun g => String.mk (pyStripChars g))).filter
          (fun p => !(p == "")) := by
  refine ⟨by decide, rfl, by decide, ?_⟩
  intro raw
  by_cases h : raw = ""
  · subst h; decide
  · simp only [split_tags]
    rw [if_neg h]
    have h1 : (splitCommaList raw.data).map (fun g => String.mk (pyStripChars g)) =
        ((splitCommaList raw.data).map pyStripChars).map String.mk := by
      rw [List.map_map]; rfl
    rw [h1]
    conv_rhs => rw [List.filter_map]
    apply congrArg
    apply List.filter_congr
    intro g _
    simp [Function.comp, mk_beq_empty]

/-! ### Claim C8 -/

/-- Claim C8: if parsing the input document fails, the conversion aborts
before any output is written — the run propagates the parse error and
performs no filesystem effect (no directory creation, no write). -/
theorem parse_error_no_effects (parsed : Except String (List AnimeEl))
    (inc inf : Bool) (e : String) (h : parsed = .error e) :
    convert_mal_xml_to_app_json parsed inc inf = .error e ∧
    effectsOf (convert_mal_xml_to_app_json parsed inc inf) = [] := by
  subst h
  exact ⟨rfl, rfl⟩

/-! ### Claim C9 -/

/-- Claim C9: the rewatching flag is true iff the `my_rewatching` field is
present (non-empty after stripping) and parses to the integer exactly 1;
absent, unparseable (defaulting to 0) or any other integer gives false. -/
theorem rewatching_flag_iff_parses_one (el : AnimeEl) :
    rewatching_of el = true ↔
      ∃ s, text el.my_rewatching = some s ∧ pyInt s = some 1 := by
  unfold rewatching_of safe_int
  cases h : text el.my_rewatching with
  | none => simp
  | some s =>
    cases hp : pyInt s with
    | none => simp [hp]
    | some k => simp [hp]

/-! ### Claim C3 -/

/-- Claim C3: the episode field is computed only when the mapped status is
`WATCHING` or `REWATCH` (absent otherwise); for `REWATCH` it is the
rewatch-episode count and for `WATCHING` the watched-episode count, with a
count of exactly 0 normalized to absent. -/
theorem episode_derivation (el : AnimeEl) (inc inf : Bool) (it : Item)
    (h : build_item el inc inf = some it) :
    (¬(it.status = "WATCHING" ∨ it.status = "REWATCH") → it.episode = none) ∧
    (it.status = "REWATCH" →
      it.episode = if rewatch_ep_of el = 0 then none else some (rewatch_ep_of el)) ∧
    (it.status = "WATCHING" →
      it.episode = if watched_eps_of el = 0 then none else some (watched_eps_of el)) := by
  have hit := build_item_some h
  subst hit
  refine ⟨?_, ?_, ?_⟩
  · intro hns
    simp only [item_for_status] at hns
    simp only [item_for_episode]
    unfold episode_of
    rw [if_neg hns]
  · intro hr
    simp only [item_for_status] at hr
    simp only [item_for_episode]
    unfold episode_of
    rw [hr]
    simp
  · intro hw
    simp only [item_for_status] at hw
    simp only [item_for_episode]
    unfold episode_of
    rw [hw]
    simp

/-! ### Claim C10 -/

/-- Claim C10: a record whose series type equals `movie` case-insensitively
after trimming but is not exactly `"Movie"` gets kind `MOVIE` (kind mapping
is case-insensitive) and simultaneously a notes fragment
`"MAL type: <source type>"` (the notes condition compares verbatim against
`"TV"` and `"Movie"`). -/
theorem lowercase_movie_kind_and_note (el : AnimeEl) (inc inf : Bool)
    (t : String) (it : Item)
    (h1 : text el.series_type = some t) (h2 : pyLower (pyStrip t) = "movie")
    (h3 : t ≠ "Movie") (h : build_item el inc inf = some it) :
    it.kind = "MOVIE" ∧
    ("MAL type: " ++ t) ∈ notes_parts (text el.my_status) (text el.series_type) := by
  have hit := build_item_some h
  subst hit
  have ht0 : t ≠ "" := by
    intro h0; rw [h0] at h2; exact absurd h2 (by decide)
  have htv : t ≠ "TV" := by
    intro h0; rw [h0] at h2; exact absurd h2 (by decide)
  constructor
  · simp only [item_for_kind]
    rw [h1]
    simp [map_kind, ht0, h2]
  · rw [h1]
    unfold notes_parts
    have hcond : (!(t == "") && !(t == "TV") && !(t == "Movie")) = true := by
      simp [ht0, htv, h3]
    simp [hcond]

/-! ### Claim C2 (corrected) -/

/-- Counterexample to claim C2 as stated: a record with status `Dropped`
and the rewatching flag set, converted with `include_dropped = true`,
produces an item whose status is `REWATCH`, not `PLAN`. -/
theorem dropped_rewatch_not_plan :
    build_item elDroppedRewatch true true = some itemDroppedRewatch ∧
    itemDroppedRewatch.status = "REWATCH" ∧ ¬itemDroppedRewatch.status = "PLAN" := by
  decide

/-- Claim C2 as amended: for every source record whose status is `Dropped`
(case-insensitively): with `include_dropped = false` the record produces no
output item; with `include_dropped = true` it produces exactly one item
whose notes contain the fragment `"MAL: Dropped"`, and whose status is
`PLAN` — unless the rewatching flag is set, in which case it is `REWATCH`. -/
theorem dropped_record_output (el : AnimeEl) (inf : Bool)
    (h : dropped_source el = true) :
    build_item el false inf = none ∧
    ∃ it, build_item el true inf = some it ∧
      it.status = (if rewatching_of el then "REWATCH" else "PLAN") ∧
      "MAL: Dropped" ∈ notes_parts (text el.my_status) (text el.series_type) ∧
      it.notes = some (joinSep " | " (notes_parts (text el.my_status) (text el.series_type))) := by
  obtain ⟨s, hs, hne, hlow⟩ := (statusIs_eq_true_iff _ _).mp h
  have hmem : "MAL: Dropped" ∈ notes_parts (text el.my_status) (text el.series_type) := by
    unfold notes_parts
    have hdro : statusIs (text el.my_status) "dropped" = true := h
    rw [hdro]
    simp
  refine ⟨?_, item_for el inf, ?_, ?_, hmem, ?_⟩
  · unfold build_item
    rw [h]
    rfl
  · unfold build_item
    rw [h]
    rfl
  · simp only [item_for_status]
    unfold status_of map_status
    cases hrw : rewatching_of el with
    | true => simp
    | false =>
      simp only [Bool.false_eq_true, if_false]
      rw [hs]
      dsimp only
      rw [if_neg hne, hlow]
      rfl
  · rw [item_for_notes]
    have hniln : ¬(notes_parts (text el.my_status) (text el.series_type)).isEmpty = true := by
      intro hemp
      rw [List.isEmpty_iff] at hemp
      rw [hemp] at hmem
      cases hmem
    simp [hniln]

/-! ### Claim C1 (corrected) -/

/-- Counterexample to claim C1 as stated: `infer_season` can return 0.
The title `"S0"` matches `RE_S_OR_SEASON_NUM` with capture `"0"`, and the
rule returns the captured integer without a lower-bound check. -/
theorem infer_season_S0_zero : infer_season "S0" = some 0 ∧ ¬1 ≤ 0 := by
  decide

lemma dval_le_nine {c : Char} (h : isDig c = true) : dval c ≤ 9 := by
  unfold isDig at h
  rw [Bool.and_eq_true, decide_eq_true_eq, decide_eq_true_eq] at h
  unfold dval
  omega

lemma twoDigitVal_le {d1 d2 : Char} (h1 : isDig d1 = true) (h2 : isDig d2 = true) :
    twoDigitVal d1 d2 ≤ 99 := by
  have a1 := dval_le_nine h1
  have a2 := dval_le_nine h2
  unfold twoDigitVal
  omega

lemma digitsTail_le {s : List Char} {n : Nat} (h : digitsTail s = some n) : n ≤ 99 := by
  unfold digitsTail at h
  cases hd : s.dropWhile isSpaceChar with
  | nil => rw [hd] at h; exact Option.noConfusion h
  | cons d1 rest =>
    rw [hd] at h
    dsimp only at h
    by_cases h1 : isDig d1 = true
    · rw [if_pos h1] at h
      cases rest with
      | nil =>
        dsimp only at h
        have h2 := Option.some.inj h
        have h3 := dval_le_nine h1
        omega
      | cons d2 rest2 =>
        dsimp only at h
        by_cases h2 : isDig d2 = true
        · rw [if_pos h2] at h
          by_cases hb : boundaryAfter rest2 = true
          · rw [if_pos hb] at h
            have h4 := Option.some.inj h
            have h5 := twoDigitVal_le h1 h2
            omega
          · rw [if_neg hb] at h; exact Option.noConfusion h
        · rw [if_neg h2] at h
          by_cases hb : boundaryAfter (d2 :: rest2) = true
          · rw [if_pos hb] at h
            have h4 := Option.some.inj h
            have h5 := dval_le_nine h1
            omega
          · rw [if_neg hb] at h; exact Option.noConfusion h
    · rw [if_neg h1] at h; exact Option.noConfusion h

lemma litThenDigits_le {lit : String} {prev : Option Char} {s : List Char} {n : Nat}
    (h : litThenDigits lit prev s = some n) : n ≤ 99 := by
  unfold litThenDigits at h
  by_cases hw : wordOpt prev = true
  · rw [if_pos hw] at h; exact Option.noConfusion h
  · rw [if_neg hw] at h
    cases hm : matchLitCI lit.data s with
    | none => rw [hm] at h; exact Option.noConfusion h
    | some rest => rw [hm] at h; dsimp only at h; exact digitsTail_le h

lemma r1At_le {prev : Option Char} {s : List Char} {n : Nat}
    (h : r1At prev s = some n) : n ≤ 99 := by
  unfold r1At at h
  cases hm : litThenDigits "season" prev s with
  | some m =>
    rw [hm] at h
    dsimp only at h
    have h2 := Option.some.inj h
    have h3 := litThenDigits_le hm
    omega
  | none => rw [hm] at h; dsimp only at h; exact litThenDigits_le h

lemma twoDigitOrd_le {d1 : Char} {l : List Char} {n : Nat} (h1 : isDig d1 = true)
    (h : twoDigitOrd d1 l = some n) : n ≤ 99 := by
  unfold twoDigitOrd at h
  split at h
  · next d2 a b rest3 =>
    split at h
    · next hcond =>
      rw [Bool.and_eq_true, Bool.and_eq_true] at hcond
      have h2 := Option.some.inj h
      have h3 := twoDigitVal_le h1 hcond.1.1
      omega
    · exact Option.noConfusion h
  · exact Option.noConfusion h

lemma oneDigitOrd_le {d1 : Char} {l : List Char} {n : Nat} (h1 : isDig d1 = true)
    (h : oneDigitOrd d1 l = some n) : n ≤ 99 := by
  unfold oneDigitOrd at h
  split at h
  · split at h
    · have h2 := Option.some.inj h
      have h3 := dval_le_nine h1
      omega
    · exact Option.noConfusion h
  · exact Option.noConfusion h

lemma r2At_le {prev : Option Char} {s : List Char} {n : Nat}
    (h : r2At prev s = some n) : n ≤ 99 := by
  unfold r2At at h
  by_cases hw : wordOpt prev = true
  · rw [if_pos hw] at h; exact Option.noConfusion h
  · rw [if_neg hw] at h
    cases s with
    | nil => exact Option.noConfusion h
    | cons d1 rest =>
      dsimp only at h
      by_cases h1 : isDig d1 = true
      · rw [if_pos h1] at h
        cases hm : twoDigitOrd d1 rest with
        | some m =>
          rw [hm] at h
          dsimp only at h
          have h2 := Option.some.inj h
          have h3 := twoDigitOrd_le h1 hm
          omega
        | none => rw [hm] at h; dsimp only at h; exact oneDigitOrd_le h1 h
      · rw [if_neg h1] at h; exact Option.noConfusion h

lemma r3At_le {prev : Option Char} {s : List Char} {n : Nat}
    (h : r3At prev s = some n) : n ≤ 99 := by
  unfold r3At at h
  exact litThenDigits_le h

lemma r4At_le {prev : Option Char} {s : List Char} {n : Nat}
    (h : r4At prev s = some n) : n ≤ 99 := by
  unfold r4At at h
  exact litThenDigits_le h

lemma scan_some {α : Type} {P : α → Prop} (f : Option Char → List Char → Option α)
    (hf : ∀ prev s a, f prev s = some a → P a) :
    ∀ (cs : List Char) (prev : Option Char) (a : α), scan f prev cs = some a → P a := by
  intro cs
  induction cs with
  | nil => intro prev a h; exact hf prev [] a h
  | cons c rest ih =>
    intro prev a h
    rw [scan] at h
    cases hm : f prev (c :: rest) with
    | some b =>
      rw [hm] at h
      dsimp only at h
      have h2 := Option.some.inj h
      subst h2
      exact hf _ _ _ hm
    | none => rw [hm] at h; dsimp only at h; exact ih _ _ h

lemma roman_lookup_le {tok : String} {v : Nat} (h : ROMAN_MAP.lookup tok = some v) :
    v ≤ 10 := by
  unfold ROMAN_MAP at h
  simp only [List.lookup] at h
  repeat' split at h
  all_goals first
    | exact Option.noConfusion h
    | (have h2 := Option.some.inj h; omega)

lemma trailingRule_le {cs : List Char} {n : Nat} (h : trailingRule cs = some n) :
    n ≤ 10 := by
  unfold trailingRule at h
  cases hm : scan r6At none cs with
  | none => rw [hm] at h; exact Option.noConfusion h
  | some m =>
    rw [hm] at h
    dsimp only at h
    by_cases hr : 1 ≤ m ∧ m ≤ 10
    · rw [if_pos hr] at h
      have h2 := Option.some.inj h
      omega
    · rw [if_neg hr] at h; exact Option.noConfusion h

/-- Claim C1 as amended: `infer_season` returns either no inference or a
captured value, which is always at most 99 (a one- or two-digit capture or
a mapped Roman numeral or range-checked trailing number) — but the
lower bound of the claim fails: the value can be 0 (e.g. for `"S0"`),
since rules 1–4 return the raw capture with no positivity check. -/
theorem infer_season_le_99 (t : String) (n : Nat) (h : infer_season t = some n) :
    n ≤ 99 := by
  unfold infer_season at h
  by_cases ht : t = ""
  · rw [if_pos ht] at h; exact Option.noConfusion h
  · rw [if_neg ht] at h
    cases h1 : scan r1At none t.data with
    | some m =>
      rw [h1] at h
      dsimp only at h
      have e := Option.some.inj h
      subst e
      exact scan_some r1At (fun _ _ _ ha => r1At_le ha) _ _ _ h1
    | none =>
      rw [h1] at h
      dsimp only at h
      cases h2 : scan r2At none t.data with
      | some m =>
        rw [h2] at h
        dsimp only at h
        have e := Option.some.inj h
        subst e
        exact scan_some r2At (fun _ _ _ ha => r2At_le ha) _ _ _ h2
      | none =>
        rw [h2] at h
        dsimp only at h
        cases h3 : scan r3At none t.data with
        | some m =>
          rw [h3] at h
          dsimp only at h
          have e := Option.some.inj h
          subst e
          exact scan_some r3At (fun _ _ _ ha => r3At_le ha) _ _ _ h3
        | none =>
          rw [h3] at h
          dsimp only at h
          cases h4 : scan r4At none t.data with
          | some m =>
            rw [h4] at h
            dsimp only at h
            have e := Option.some.inj h
            subst e
            exact scan_some r4At (fun _ _ _ ha => r4At_le ha) _ _ _ h4
          | none =>
            rw [h4] at h
            dsimp only at h
            cases h5 : scan r5At none t.data with
            | some tok =>
              rw [h5] at h
              dsimp only at h
              cases h6 : ROMAN_MAP.lookup tok with
              | some v =>
                rw [h6] at h
                dsimp only at h
                have e := Option.some.inj h
                have h7 := roman_lookup_le h6
                omega
              | none =>
                rw [h6] at h
                dsimp only at h
                have h7 := trailingRule_le h
                omega
            | none =>
              rw [h5] at h
              dsimp only at h
              have h7 := trailingRule_le h
              omega

/-- Witness for `infer_season_le_99` at the concrete title `"S2"`. -/
theorem infer_season_le_99_witness : infer_season "S2" = some 2 ∧ 2 ≤ 99 :=
  ⟨by decide, infer_season_le_99 "S2" 2 (by decide)⟩

/-! ### Claim C4 (corrected): characterizing the trailing-number rule -/

lemma isDig_not_space {c : Char} (h : isDig c = true) : isSpaceChar c = false := by
  unfold isDig at h
  rw [Bool.and_eq_true, decide_eq_true_eq, decide_eq_true_eq] at h
  rw [Bool.eq_false_iff]
  intro hsp
  unfold isSpaceChar at hsp
  simp only [Bool.or_eq_true, decide_eq_true_eq] at hsp
  omega

lemma dropWhile_append_nil {p : Char → Bool} {l₁ : List Char}
    (h : l₁.dropWhile p = []) (l₂ : List Char) :
    (l₁ ++ l₂).dropWhile p = l₂.dropWhile p := by
  rw [List.dropWhile_append, h]
  rfl

lemma dropWhile_append_cons {p : Char → Bool} {l₁ : List Char} {x : Char} {t : List Char}
    (h : l₁.dropWhile p = x :: t) (l₂ : List Char) :
    (l₁ ++ l₂).dropWhile p = x :: (t ++ l₂) := by
  rw [List.dropWhile_append, h]
  rfl

lemma all_reverse_dropWhile_nil {p : Char → Bool} {l : List Char}
    (h : l.all p = true) : l.reverse.dropWhile p = [] := by
  rw [List.dropWhile_eq_nil_iff]
  intro x hx
  rw [List.mem_reverse] at hx
  exact List.all_eq_true.mp h x hx

lemma reverse_dropWhile_nil_all {p : Char → Bool} {l : List Char}
    (h : l.reverse.dropWhile p = []) : l.all p = true := by
  rw [List.dropWhile_eq_nil_iff] at h
  rw [List.all_eq_true]
  intro x hx
  exact h x (List.mem_reverse.mpr hx)

lemma reverse_dropWhile_singleton {p : Char → Bool} {l : List Char} {x : Char}
    (h : l.reverse.dropWhile p = [x]) : ∃ w : List Char, l = x :: w ∧ w.all p = true := by
  have hTD : l.reverse.takeWhile p ++ l.reverse.dropWhile p = l.reverse :=
    List.takeWhile_append_dropWhile p l.reverse
  rw [h] at hTD
  refine ⟨(l.reverse.takeWhile p).reverse, ?_, ?_⟩
  · have h2 := congrArg List.reverse hTD
    rw [List.reverse_append, List.reverse_reverse] at h2
    simpa using h2.symm
  · rw [List.all_eq_true]
    intro a ha
    rw [List.mem_reverse] at ha
    exact List.mem_takeWhile_imp ha

lemma r6At_some_spec {prev : Option Char} {c : Char} {rest : List Char} {n : Nat}
    (h : r6At prev (c :: rest) = some n) : specTrailing (c :: rest) = some n := by
  unfold r6At at h
  dsimp only at h
  by_cases hc : isDig c = true
  · rw [if_pos hc] at h
    cases rest with
    | nil =>
      have e := Option.some.inj h
      subst e
      unfold specTrailing
      simp [tailMatcher, hc, isDig_not_space hc]
    | cons d2 rest2 =>
      dsimp only at h
      by_cases hd2 : isDig d2 = true
      · rw [if_pos hd2] at h
        by_cases hall : rest2.all isSpaceChar = true
        · rw [if_pos hall] at h
          have e := Option.some.inj h
          subst e
          unfold specTrailing
          have hrev : (c :: d2 :: rest2).reverse = rest2.reverse ++ ([d2] ++ [c]) := by
            simp
          rw [hrev, dropWhile_append_nil (all_reverse_dropWhile_nil hall)]
          simp [tailMatcher, hd2, hc, isDig_not_space hd2]
        · rw [if_neg hall] at h; exact Option.noConfusion h
      · rw [if_neg hd2] at h
        by_cases hall : (d2 :: rest2).all isSpaceChar = true
        · rw [if_pos hall] at h
          have e := Option.some.inj h
          subst e
          unfold specTrailing
          have hrev : (c :: d2 :: rest2).reverse = (d2 :: rest2).reverse ++ [c] := by
            simp
          rw [hrev, dropWhile_append_nil (all_reverse_dropWhile_nil hall)]
          simp [tailMatcher, hc, isDig_not_space hc]
        · rw [if_neg hall] at h; exact Option.noConfusion h
  · rw [if_neg hc] at h; exact Option.noConfusion h

lemma r6At_none_spec {prev : Option Char} {c : Char} {rest : List Char}
    (h : r6At prev (c :: rest) = none) : specTrailing (c :: rest) = specTrailing rest := by
  have hrev : (c :: rest).reverse = rest.reverse ++ [c] := by simp
  cases hL : rest.reverse.dropWhile isSpaceChar with
  | nil =>
    have hall : rest.all isSpaceChar = true := reverse_dropWhile_nil_all hL
    have hc : isDig c = false := by
      by_contra hcc
      rw [Bool.not_eq_false] at hcc
      unfold r6At at h
      dsimp only at h
      rw [if_pos hcc] at h
      cases rest with
      | nil => exact Option.noConfusion h
      | cons d2 rest2 =>
        dsimp only at h
        have hsp2 : isSpaceChar d2 = true := by
          rw [List.all_cons, Bool.and_eq_true] at hall
          exact hall.1
        have hd2 : isDig d2 = false := by
          by_contra hdd
          rw [Bool.not_eq_false] at hdd
          rw [isDig_not_space hdd] at hsp2
          exact Bool.noConfusion hsp2
        rw [if_neg (by simp [hd2]), if_pos hall] at h
        exact Option.noConfusion h
    unfold specTrailing
    rw [hrev, dropWhile_append_nil hL, hL]
    by_cases hspc : isSpaceChar c = true
    · simp [tailMatcher, hspc]
    · rw [Bool.not_eq_true] at hspc
      simp [tailMatcher, hspc, hc]
  | cons x t =>
    unfold specTrailing
    rw [hrev, dropWhile_append_cons hL, hL]
    by_cases hx : isDig x = true
    · cases t with
      | cons y t' => simp [tailMatcher, hx]
      | nil =>
        obtain ⟨w, hw1, hw2⟩ := reverse_dropWhile_singleton hL
        have hc : isDig c = false := by
          by_contra hcc
          rw [Bool.not_eq_false] at hcc
          unfold r6At at h
          dsimp only at h
          rw [if_pos hcc, hw1] at h
          dsimp only at h
          rw [if_pos hx, if_pos hw2] at h
          exact Option.noConfusion h
        simp [tailMatcher, hx, hc]
    · rw [Bool.not_eq_true] at hx
      simp [tailMatcher, hx]

lemma scan_r6_spec (cs : List Char) : ∀ prev, scan r6At prev cs = specTrailing cs := by
  induction cs with
  | nil => intro prev; rfl
  | cons c rest ih =>
    intro prev
    rw [scan]
    cases hm : r6At prev (c :: rest) with
    | some n => dsimp only; exact (r6At_some_spec hm).symm
    | none =>
      dsimp only
      rw [ih (some c)]
      exact (r6At_none_spec hm).symm

/-- Counterexample to claim C4 as stated: rules 1–5 all fail on the title
`"105"`, which ends in an integer of more than two digits, yet the
trailing-number rule matches its last two digits `"05"` and infers
season 5 instead of yielding no inference. -/
theorem infer_season_105_five :
    scan r1At none "105".data = none ∧ scan r2At none "105".data = none ∧
    scan r3At none "105".data = none ∧ scan r4At none "105".data = none ∧
    scan r5At none "105".data = none ∧ infer_season "105" = some 5 := by
  decide

/-- Claim C4 as amended: on every title where rules 1–5 fail, the
trailing-number rule examines the last one or two digit characters before
optional trailing whitespace — even when they are part of a longer digit
run — and that value is the season iff it lies in the inclusive range
1–10; otherwise there is no inference.  (In particular a title ending in
more than two digits can still produce an inference, e.g. `"105"` → 5.) -/
theorem trailing_rule_last_two_digits (t : String) (h0 : ¬t = "")
    (h1 : scan r1At none t.data = none) (h2 : scan r2At none t.data = none)
    (h3 : scan r3At none t.data = none) (h4 : scan r4At none t.data = none)
    (h5 : scan r5At none t.data = none) :
    infer_season t =
      match specTrailing t.data with
      | some n => if 1 ≤ n ∧ n ≤ 10 then some n else none
      | none => none := by
  unfold infer_season
  rw [if_neg h0, h1]
  dsimp only
  rw [h2]
  dsimp only
  rw [h3]
  dsimp only
  rw [h4]
  dsimp only
  rw [h5]
  dsimp only
  unfold trailingRule
  rw [scan_r6_spec]

/-- Witness for `trailing_rule_last_two_digits` at the concrete title
`"One Punch Man 3"` (rules 1–5 fail, trailing digit 3 is in range). -/
theorem trailing_rule_last_two_digits_witness :
    infer_season "One Punch Man 3" = some 3 :=
  (trailing_rule_last_two_digits "One Punch Man 3" (by decide) (by decide) (by decide)
    (by decide) (by decide) (by decide)).trans (by decide)

/-! ### Remaining witnesses -/

/-- Witness for `dropped_record_output` at a concrete `Dropped` record. -/
theorem dropped_record_output_witness :
    dropped_source elDroppedPlain = true ∧
    (build_item elDroppedPlain false true = none ∧
     ∃ it, build_item elDroppedPlain true true = some it ∧
       it.status = (if rewatching_of elDroppedPlain then "REWATCH" else "PLAN") ∧
       "MAL: Dropped" ∈ notes_parts (text elDroppedPlain.my_status) (text elDroppedPlain.series_type) ∧
       it.notes = some (joinSep " | "
         (notes_parts (text elDroppedPlain.my_status) (text elDroppedPlain.series_type)))) :=
  ⟨by decide, dropped_record_output elDroppedPlain true (by decide)⟩

/-- Witness for `episode_derivation` at a concrete watching record. -/
theorem episode_derivation_witness :
    build_item elWatching12 false true = some itemWatching12 ∧
    itemWatching12.status = "WATCHING" ∧ itemWatching12.episode = some 12 :=
  ⟨by decide, by decide,
    ((episode_derivation elWatching12 false true itemWatching12 (by decide)).2.2
      (by decide)).trans (by decide)⟩

/-- Witness for `rewatching_forces_rewatch` at a concrete rewatching record. -/
theorem rewatching_forces_rewatch_witness :
    rewatching_of elRewatchCompleted = true ∧
    build_item elRewatchCompleted false true = some itemRewatchCompleted ∧
    itemRewatchCompleted.status = "REWATCH" :=
  ⟨by decide, by decide,
    rewatching_forces_rewatch.2 elRewatchCompleted false true itemRewatchCompleted
      (by decide) (by decide)⟩

/-- Witness for `parse_error_no_effects` at a concrete parse failure. -/
theorem parse_error_no_effects_witness :
    convert_mal_xml_to_app_json (Except.error "ParseError") false true =
      Except.error "ParseError" ∧
    effectsOf (convert_mal_xml_to_app_json (Except.error "ParseError") false true) = [] :=
  parse_error_no_effects (Except.error "ParseError") false true "ParseError" rfl

/-- Witness for `lowercase_movie_kind_and_note` at a concrete record with
series type `"movie"`. -/
theorem lowercase_movie_kind_and_note_witness :
    text elMovieLower.series_type = some "movie" ∧
    build_item elMovieLower false true = some itemMovieLower ∧
    (itemMovieLower.kind = "MOVIE" ∧
      ("MAL type: " ++ "movie") ∈
        notes_parts (text elMovieLower.my_status) (text elMovieLower.series_type)) :=
  ⟨by decide, by decide,
    lowercase_movie_kind_and_note elMovieLower false true "movie" itemMovieLower
      (by decide) (by decide) (by decide) (by decide)⟩

end AniMehList
